import Mathlib

/-!
Shallow embedding of the exchange-rates scraper (minfin_scraper.py) and the
telegram bot's subscription / scheduling layer (subscription.py, bot.py).

HTML parsing (BeautifulSoup) is abstracted: a parsed document is a list of
tables; a table carries its id attribute, class list, thead rows and tbody
rows, each row being the list of its cells' text contents (pre-trim, as
`cell.text` yields them).  Python `float` parsing of rate strings is modelled
for the decimal grammar `[+-]? digits [. digits]?`; any other string fails to
parse, exactly as a non-numeric cell makes `float` raise in the source.
-/

namespace Minfin

/-- One bank's exchange-rate record, the dict built by `_extract_bank_data`. -/
structure Record where
  bank : String
  currency : String
  cash_buy : Option String
  cash_sell : Option String
  card_buy : Option String
  card_sell : Option String
  update_time : Option String
deriving Repr, DecidableEq

/-- A parsed HTML table: id attribute, class list, thead rows, tbody rows.
Each row is its cells' text contents. -/
structure Table where
  id : Option String
  classes : List String
  theadRows : List (List String)
  tbodyRows : List (List String)
deriving Repr, DecidableEq

/-- Python `str.strip()` on a cell's text: drop leading and trailing
whitespace (structural recursion over the character list, so that concrete
tables evaluate inside the kernel). -/
def stripText (s : String) : String :=
  ⟨((s.data.dropWhile Char.isWhitespace).reverse.dropWhile
      Char.isWhitespace).reverse⟩

/-- Python `str.upper()` on a currency code. -/
def upperText (s : String) : String :=
  ⟨s.data.map Char.toUpper⟩

/-- Source `_find_exchange_rate_table`: first table whose id is "smTable" or whose
class list contains "mfcur-table-sm-banks"; `none` when no table matches. -/
def find_exchange_rate_table (tables : List Table) : Option Table :=
  tables.find? fun t =>
    t.id = some "smTable" || t.classes.contains "mfcur-table-sm-banks"

/-- Source `_extract_table_headers`: reads thead rows 0 and 1; in Python indexing
past the end raises (caught by the caller), modelled as `none`. -/
def extract_table_headers (t : Table) : Option (List String × List String) :=
  match t.theadRows with
  | h1 :: h2 :: _ => some (h1, h2)
  | _ => none

/-- The local helper `extract_rate` inside `_extract_bank_data`:
out-of-range index, empty string and the "-" placeholder give `None`. -/
def extract_rate (cell_values : List String) (index : Nat) : Option String :=
  match cell_values.get? index with
  | none => none
  | some value => if value ≠ "" ∧ value ≠ "-" then some value else none

/-- Source `_extract_bank_data`: positional mapping of a row's cell values to a
record. `cell_values[0]` raises IndexError on an empty row (caught by the
caller), modelled as `none`. `update_time` is taken verbatim from index 7. -/
def extract_bank_data (cell_values : List String) (currency : String) :
    Option Record :=
  match cell_values.get? 0 with
  | none => none
  | some bank_name =>
    some
      { bank := bank_name
        currency := upperText currency
        cash_buy := extract_rate cell_values 1
        cash_sell := extract_rate cell_values 3
        card_buy := extract_rate cell_values 4
        card_sell := extract_rate cell_values 6
        update_time := cell_values.get? 7 }

/-- Source `_process_table_rows`: iterate tbody rows, skip rows with fewer than 5
cells, trim every cell's text, extract a record per surviving row; a row
whose extraction raises is dropped (`filterMap`). -/
def process_table_rows (t : Table) (currency : String) : List Record :=
  (t.tbodyRows.filter fun cells => decide (5 ≤ cells.length)).filterMap
    fun cells => extract_bank_data (cells.map stripText) currency

/-- A parsed decimal number num / 10 ^ shift, the model of a Python float
produced by parsing a rate string. -/
structure Dec where
  num : Int
  shift : Nat
deriving Repr, DecidableEq

/-- Digits to a natural number, most significant first. -/
def digitsToNat (ds : List Char) : Nat :=
  ds.foldl (fun a c => a * 10 + (c.toNat - 48)) 0

/-- Model of Python `float(s)` on the decimal grammar
`[+-]? digits [. digits]?` (at least one digit); `none` models `ValueError`. -/
def parseDecimal (s : String) : Option Dec :=
  let cs := s.toList
  let core : Bool × List Char :=
    match cs with
    | '-' :: r => (true, r)
    | '+' :: r => (false, r)
    | r => (false, r)
  let neg := core.1
  let intPart := core.2.takeWhile Char.isDigit
  let rest := core.2.dropWhile Char.isDigit
  let mk (digits : List Char) (shift : Nat) : Dec :=
    let n : Int := Int.ofNat (digitsToNat digits)
    ⟨if neg then -n else n, shift⟩
  match rest with
  | [] => if intPart.isEmpty then none else some (mk intPart 0)
  | '.' :: frac =>
    if frac.all Char.isDigit && !(intPart.isEmpty && frac.isEmpty) then
      some (mk (intPart ++ frac) frac.length)
    else none
  | _ => none

/-- The sort key of `_sort_exchange_data.key_func`: `none` models `-inf`
(absent, empty, or unparsable `cash_sell`). -/
def sortKey (r : Record) : Option Dec :=
  match r.cash_sell with
  | none => none
  | some s => if s = "" then none else parseDecimal s

/-- Numeric comparison of two parsed decimals: num₁/10^s₁ ≤ num₂/10^s₂. -/
def decLE (x y : Dec) : Bool :=
  decide (x.num * (10 : Int) ^ y.shift ≤ y.num * (10 : Int) ^ x.shift)

/-- Ascending comparison on records by sort key, `none` below everything
(the code's `-inf`). -/
def rateLE (a b : Record) : Bool :=
  match sortKey a, sortKey b with
  | none, _ => true
  | some _, none => false
  | some x, some y => decLE x y

/-- Relation `rateLE` as a decidable Prop relation, for use with the sort. -/
def RateLE (a b : Record) : Prop := rateLE a b = true

instance : DecidableRel RateLE := fun a b => by
  unfold RateLE; infer_instance

/-- Source `_sort_exchange_data`: `sorted(data, key=key_func)` is a stable sort
ascending by the key; modelled by insertion sort, which is stable for the
total preorder `RateLE`. -/
def sort_exchange_data (data : List Record) : List Record :=
  data.insertionSort RateLE

/-- Source `parse_exchange_rates`: locate the table, read the headers (any failure
there is caught and yields `[]`), process the rows, sort. -/
def parse_exchange_rates (tables : List Table) (currency : String) :
    List Record :=
  match find_exchange_rate_table tables with
  | none => []
  | some t =>
    match extract_table_headers t with
    | none => []
    | some _ => sort_exchange_data (process_table_rows t currency)

/-- Source `get_exchange_rates`: the fetched/parsed document, or the fetch failure,
is the `Except` argument; every internal failure yields `[]`. -/
def get_exchange_rates (fetched : Except String (List Table))
    (currency : String) : List Record :=
  match fetched with
  | .error _ => []
  | .ok tables => parse_exchange_rates tables currency

/-- Outcome of `fetch_page` together with its observable effects. -/
inductive FetchResult where
  | success (text : String)
  | connectionFailure (msg : String)
  | noAttempt
deriving Repr, DecidableEq

/-- The retry loop of `fetch_page`, fuelled by the remaining budget
`max_retries - idx`.  Returns (outcome, attempts made, sleeps taken).
`attempt i` is the transport outcome of the i-th HTTP attempt. -/
def fetch_loop (attempt : Nat → Except String String) (max_retries : Nat) :
    Nat → Nat → FetchResult × Nat × Nat
  | 0, _ => (.noAttempt, 0, 0)
  | fuel + 1, idx =>
    match attempt idx with
    | .ok t => (.success t, 1, 0)
    | .error e =>
      if idx + 1 < max_retries then
        let r := fetch_loop attempt max_retries fuel (idx + 1)
        (r.1, r.2.1 + 1, r.2.2 + 1)
      else
        (.connectionFailure e, 1, 0)

/-- Source `fetch_page`: up to `max_retries` attempts, a fixed delay between
consecutive attempts, `ConnectionError` after exhausting the budget. -/
def fetch_page (attempt : Nat → Except String String) (max_retries : Nat) :
    FetchResult × Nat × Nat :=
  fetch_loop attempt max_retries max_retries 0

/-- Constant `config.MAX_RETRIES`. -/
def MAX_RETRIES : Nat := 3

end Minfin

namespace TgBot

/-- Source `UserSubscription` (subscription.py): currencies, schedule
("daily" or "weekly"), time-of-day "HH:MM". -/
structure UserSubscription where
  currencies : List String
  schedule : String
  time : String
deriving Repr, DecidableEq

/-- The dict produced by `UserSubscription.to_dict`, i.e. the JSON object
stored per user in the subscriptions file. -/
structure SubDict where
  currencies : List String
  schedule : String
  time : String
deriving Repr, DecidableEq

/-- Source `UserSubscription.to_dict`. -/
def to_dict (s : UserSubscription) : SubDict :=
  { currencies := s.currencies, schedule := s.schedule, time := s.time }

/-- Source `UserSubscription.from_dict`; the dict written by `to_dict`
always carries all three keys, so the Python defaults never apply here. -/
def from_dict (d : SubDict) : UserSubscription :=
  { currencies := d.currencies, schedule := d.schedule, time := d.time }

/-- State of a `SubscriptionManager`: the in-memory subscriber map (an
insertion-ordered association list with unique keys, like a Python dict)
and the durable file content (`none` = file absent). -/
structure ManagerState where
  subs : List (String × UserSubscription)
  stored : Option (List (String × SubDict))
deriving Repr, DecidableEq

/-- Source `SubscriptionManager.save`: serialize the whole map and rewrite
the file. -/
def save (st : ManagerState) : ManagerState :=
  { st with stored := some (st.subs.map fun p => (p.1, to_dict p.2)) }

/-- Source `SubscriptionManager.load` on a fresh manager: missing file gives
an empty map, otherwise every stored dict is decoded with `from_dict`. -/
def load (stored : Option (List (String × SubDict))) :
    List (String × UserSubscription) :=
  match stored with
  | none => []
  | some data => data.map fun p => (p.1, from_dict p.2)

/-- Source `SubscriptionManager.remove`: delete the key and persist when
present, otherwise return false and change nothing. -/
def remove (st : ManagerState) (user_id : String) : Bool × ManagerState :=
  if (st.subs.lookup user_id).isSome then
    (true, save { st with subs := st.subs.filter fun p => p.1 ≠ user_id })
  else
    (false, st)

/-- Validity of a "HH:MM" time string, the spec's
`^([01]\d|2[0-3]):([0-5]\d)$` pattern. -/
def validTime (t : String) : Bool :=
  match t.data with
  | [h1, h2, c, m1, m2] =>
    h1.isDigit && h2.isDigit && c = ':' && m1.isDigit && m2.isDigit &&
      decide ((h1.toNat - 48) * 10 + (h2.toNat - 48) < 24) &&
      decide ((m1.toNat - 48) * 10 + (m2.toNat - 48) < 60)
  | _ => false

/-- A valid subscription: schedule is "daily" or "weekly" and the time
matches the HH:MM pattern. -/
def valid_subscription (s : UserSubscription) : Bool :=
  (s.schedule = "daily" || s.schedule = "weekly") && validTime s.time

/-- The per-subscription dispatch condition of `scheduled_job` (bot.py):
the subscription's time equals the tick's current "HH:MM" string, and the
schedule is "daily", or "weekly" on Sunday (Python weekday 6; Monday is 0). -/
def should_send (sub : UserSubscription) (current_time : String)
    (current_day : Nat) : Bool :=
  sub.time = current_time &&
    (sub.schedule = "daily" || (sub.schedule = "weekly" && current_day = 6))

/-- One scheduler tick's selection: the subscriptions for which
`send_notifications_to_user` is invoked, in the map's iteration order. -/
def due_subscriptions (subs : List (String × UserSubscription))
    (current_time : String) (current_day : Nat) :
    List (String × UserSubscription) :=
  subs.filter fun p => should_send p.2 current_time current_day

end TgBot

open Minfin TgBot

/-- Concrete document for exercising the sort order: first body row has a
parsable cash-sell cell "27.5", second has the placeholder "-". -/
def tableC1 : Table :=
  { id := some "smTable", classes := [],
    theadRows := [["Bank", "Cash", "Card"], ["", "buy", "sell"]],
    tbodyRows := [["BankX", "-", "-", "27.5", "-"],
                  ["BankY", "-", "-", "-", "-"]] }

/-- Concrete document for the end-to-end extraction scenario: table of id
"smTable", two header rows, one body row. -/
def tableC2 : Table :=
  { id := some "smTable", classes := [],
    theadRows := [["Bank", "Cash", "Card"], ["", "buy", "sell"]],
    tbodyRows := [["BankA", "27.5", "-", "27.9", "-", "-", "-", "12:00"]] }

/-- Concrete document whose single body row carries the placeholder "-" in
every cell past the bank name, including the update-time cell (index 7). -/
def tableC3 : Table :=
  { id := some "smTable", classes := [],
    theadRows := [["Bank", "Cash", "Card"], ["", "buy", "sell"]],
    tbodyRows := [["BankC", "-", "-", "-", "-", "-", "-", "-"]] }

/-- A recognizable table with an empty thead, so header extraction fails. -/
def tableNoHead : Table := ⟨some "smTable", [], [], []⟩

/-- Concrete row of exactly 5 cells (no card-sell cell, no update-time
cell). -/
def rowC10 : List String := ["BankW", "27.5", "-", "28.0", "27.7"]

/-- Concrete document holding `rowC10` as its only body row. -/
def tableC10 : Table :=
  { id := some "smTable", classes := [],
    theadRows := [["h"], ["s"]], tbodyRows := [rowC10] }

/-- Concrete row whose four rate cells are placeholders or empty. -/
def c3wCells : List String := ["B", "-", "x", "", "-", "y", ""]

/-- The record extracted from `c3wCells`. -/
def c3wRec : Record :=
  { bank := "B", currency := "USD", cash_buy := none, cash_sell := none,
    card_buy := none, card_sell := none, update_time := none }

/-- A concrete subscription. -/
def subA : UserSubscription := ⟨["usd"], "daily", "09:30"⟩

/-- A concrete manager state holding one subscriber. -/
def st8 : ManagerState := ⟨[("1", subA)], none⟩

/-- A concrete subscriber map of valid subscriptions. -/
def subs9 : List (String × UserSubscription) :=
  [("1", ⟨["usd", "eur"], "daily", "09:30"⟩),
   ("2", ⟨["usd"], "weekly", "23:59"⟩)]

namespace Minfin

/-- Transitivity of the decimal comparison. -/
lemma decLE_trans {x y z : Dec} (h1 : decLE x y = true)
    (h2 : decLE y z = true) : decLE x z = true := by
  simp only [decLE, decide_eq_true_eq] at h1 h2 ⊢
  have hy : (0:Int) < 10 ^ y.shift := pow_pos (by norm_num) _
  have hx : (0:Int) < 10 ^ x.shift := pow_pos (by norm_num) _
  have hz : (0:Int) < 10 ^ z.shift := pow_pos (by norm_num) _
  nlinarith [mul_le_mul_of_nonneg_right h1 hz.le,
    mul_le_mul_of_nonneg_right h2 hx.le]

/-- Totality of the decimal comparison. -/
lemma decLE_total (x y : Dec) : decLE x y = true ∨ decLE y x = true := by
  simp only [decLE, decide_eq_true_eq]
  exact Int.le_total _ _

/-- Transitivity of the record comparison used by the sort. -/
lemma rateLE_trans {a b c : Record} (h1 : rateLE a b = true)
    (h2 : rateLE b c = true) : rateLE a c = true := by
  unfold rateLE at h1 h2 ⊢
  cases ha : sortKey a <;> cases hb : sortKey b <;> cases hc : sortKey c <;>
    simp_all
  exact decLE_trans h1 h2

/-- Totality of the record comparison used by the sort. -/
lemma rateLE_total (a b : Record) : rateLE a b = true ∨ rateLE b a = true := by
  unfold rateLE
  cases ha : sortKey a <;> cases hb : sortKey b <;> simp_all
  exact decLE_total _ _

instance : IsTrans Record RateLE := ⟨fun _ _ _ => rateLE_trans⟩

instance : IsTotal Record RateLE := ⟨rateLE_total⟩

/-- The sorting pass always yields a list sorted by `RateLE`. -/
lemma sorted_sort_exchange_data (data : List Record) :
    List.Sorted RateLE (sort_exchange_data data) :=
  List.sorted_insertionSort RateLE data

end Minfin

namespace TgBot

/-- Looking up a key in a list from which that key was filtered out finds
nothing. -/
lemma lookup_filter_ne (l : List (String × UserSubscription)) (uid : String) :
    (l.filter fun p => p.1 ≠ uid).lookup uid = none := by
  induction l with
  | nil => rfl
  | cons p l ih =>
    rw [List.filter_cons]
    by_cases h : p.1 = uid
    · simpa [h] using ih
    · have hf : (decide (p.1 ≠ uid)) = true := by simpa using h
      have hb : (uid == p.1) = false := by
        simp [beq_iff_eq]
        exact fun hc => h hc.symm
      simp only [hf, if_true, List.lookup, hb, ih]

/-- Decoding the stored form of a map restores that map. -/
lemma load_save_subs (subs : List (String × UserSubscription))
    (stored0 : Option (List (String × SubDict))) :
    load (save ⟨subs, stored0⟩).stored = subs := by
  simp [load, save, List.map_map, Function.comp_def, from_dict, to_dict]

end TgBot

/-- A cell holding the placeholder "-" or the empty string makes the rate
helper return `none`. -/
lemma extract_rate_placeholder (cells : List String) (i : Nat)
    (h : cells.get? i = some "-" ∨ cells.get? i = some "") :
    extract_rate cells i = none := by
  rcases h with h | h <;> (unfold extract_rate; rw [h]; simp)

/-- When every attempt fails, the retry loop runs its whole remaining budget,
sleeping between consecutive attempts, and ends in a connection failure. -/
lemma fetch_loop_all_fail (attempt : Nat → Except String String) (m : Nat) :
    ∀ fuel idx, idx + fuel = m → 1 ≤ fuel →
      (∀ i, ∃ e, attempt i = Except.error e) →
      ∃ e, fetch_loop attempt m fuel idx =
        (.connectionFailure e, fuel, fuel - 1) := by
  intro fuel
  induction fuel with
  | zero => intro idx _ h1 _; exact absurd h1 (by omega)
  | succ f ih =>
    intro idx hsum _ hfail
    obtain ⟨e, he⟩ := hfail idx
    unfold fetch_loop
    rw [he]
    dsimp only
    by_cases hlt : idx + 1 < m
    · have hf1 : 1 ≤ f := by omega
      obtain ⟨e', he'⟩ := ih (idx + 1) (by omega) hf1 hfail
      rw [if_pos hlt]
      refine ⟨e', ?_⟩
      rw [he']
      have : f - 1 + 1 = f := by omega
      simp [this]
    · rw [if_neg hlt]
      have hf0 : f = 0 := by omega
      exact ⟨e, by simp [hf0]⟩

/-- C1, counterexample: on a located table whose rows give cash-sell values
"27.5" and absent, the output of `parse_exchange_rates` places the record
with the absent cash-sell before the parsable one, so absent values do not
sort last as the claim states. -/
theorem c1_absent_cash_sell_sorts_first_counterexample :
    ¬ (parse_exchange_rates [tableC1] "usd").Pairwise
        (fun a b => sortKey a = none → sortKey b = none) := by decide

/-- C1, amended: the final output of `parse_exchange_rates` is sorted
ascending by the numeric value of cash-sell with absent or unparsable
values treated as negative infinity, so such records are ordered before
every record with a parsable cash-sell. -/
theorem c1_parse_output_sorted_absent_first (tables : List Table)
    (c : String) :
    List.Sorted RateLE (parse_exchange_rates tables c) ∧
      (parse_exchange_rates tables c).Pairwise
        (fun a b => sortKey b = none → sortKey a = none) := by
  have hs : List.Sorted RateLE (parse_exchange_rates tables c) := by
    unfold parse_exchange_rates
    split
    · exact List.sorted_nil
    · split
      · exact List.sorted_nil
      · exact sorted_sort_exchange_data _
  refine ⟨hs, hs.imp ?_⟩
  intro a b hab hb
  unfold RateLE rateLE at hab
  rw [hb] at hab
  cases hk : sortKey a with
  | none => rfl
  | some x => rw [hk] at hab; simp at hab

/-- C2, counterexample: on the claim's markup the extracted record does not
have an absent cash-sell together with card-buy "27.9"; index 3 of the row
is the cash-sell column. -/
theorem c2_scenario_counterexample :
    ¬ ((parse_exchange_rates [tableC2] "usd").map
        (fun r => (r.cash_sell, r.card_buy)) = [(none, some "27.9")]) := by
  decide

/-- C2, amended: markup with a table of id "smTable", two header rows and
the single body row ["BankA","27.5","-","27.9","-","-","-","12:00"] yields
exactly one record with bank "BankA", cash-buy "27.5", cash-sell "27.9",
card-buy absent, card-sell absent and update-time "12:00". -/
theorem c2_scenario_amended :
    parse_exchange_rates [tableC2] "usd" =
      [{ bank := "BankA", currency := "USD", cash_buy := some "27.5",
         cash_sell := some "27.9", card_buy := none, card_sell := none,
         update_time := some "12:00" }] := by decide

/-- C3, counterexample: a body-row cell equal to "-" at index 7 is copied
verbatim into `update_time`, so that optional field does hold the
placeholder token itself. -/
theorem c3_update_time_placeholder_counterexample :
    (process_table_rows tableC3 "usd").map Record.update_time = [some "-"] := by
  decide

/-- C3, amended: for the four rate fields cash-buy, cash-sell, card-buy and
card-sell, a cell equal to "-" or to the empty string produces an absent
field; update-time is exempt, being copied verbatim from index 7. -/
theorem c3_rate_placeholder_normalized (cells : List String)
    (currency : String) (r : Record)
    (hr : extract_bank_data cells currency = some r) :
    ((cells.get? 1 = some "-" ∨ cells.get? 1 = some "") → r.cash_buy = none) ∧
    ((cells.get? 3 = some "-" ∨ cells.get? 3 = some "") → r.cash_sell = none) ∧
    ((cells.get? 4 = some "-" ∨ cells.get? 4 = some "") → r.card_buy = none) ∧
    ((cells.get? 6 = some "-" ∨ cells.get? 6 = some "") → r.card_sell = none) := by
  unfold extract_bank_data at hr
  cases hc : cells.get? 0 <;> rw [hc] at hr
  · simp at hr
  · injection hr with hr
    subst hr
    exact ⟨fun h => extract_rate_placeholder cells 1 h,
           fun h => extract_rate_placeholder cells 3 h,
           fun h => extract_rate_placeholder cells 4 h,
           fun h => extract_rate_placeholder cells 6 h⟩

/-- C3, witness: the amended theorem applied to a concrete row whose rate
cells are "-" or empty. -/
theorem c3_rate_placeholder_normalized_witness :
    extract_bank_data c3wCells "usd" = some c3wRec ∧
    c3wRec.cash_buy = none ∧ c3wRec.cash_sell = none ∧
    c3wRec.card_buy = none ∧ c3wRec.card_sell = none := by
  have h : extract_bank_data c3wCells "usd" = some c3wRec := by decide
  have hall := c3_rate_placeholder_normalized c3wCells "usd" c3wRec h
  exact ⟨h, hall.1 (Or.inl (by decide)), hall.2.1 (Or.inr (by decide)),
    hall.2.2.1 (Or.inl (by decide)), hall.2.2.2 (Or.inr (by decide))⟩

/-- C4: `get_exchange_rates` is a total function of the fetch outcome; a
fetch failure yields the empty list, and so does every parse-failure path
(no recognizable table, or header extraction failing). -/
theorem c4_get_exchange_rates_never_raises :
    (∀ (e c : String), get_exchange_rates (Except.error e) c = []) ∧
    (∀ (tables : List Table) (c : String),
       find_exchange_rate_table tables = none →
       get_exchange_rates (Except.ok tables) c = []) ∧
    (∀ (tables : List Table) (t : Table) (c : String),
       find_exchange_rate_table tables = some t →
       extract_table_headers t = none →
       get_exchange_rates (Except.ok tables) c = []) := by
  refine ⟨fun e c => rfl, fun tables c hf => ?_, fun tables t c hf hh => ?_⟩
  · simp [get_exchange_rates, parse_exchange_rates, hf]
  · simp [get_exchange_rates, parse_exchange_rates, hf, hh]

/-- C4, witness: the theorem applied to a failed fetch, to a document with
no recognizable table, and to a recognizable table with no headers. -/
theorem c4_get_exchange_rates_never_raises_witness :
    get_exchange_rates (Except.error "boom") "usd" = [] ∧
    get_exchange_rates (Except.ok []) "usd" = [] ∧
    get_exchange_rates (Except.ok [tableNoHead]) "usd" = [] :=
  ⟨c4_get_exchange_rates_never_raises.1 "boom" "usd",
   c4_get_exchange_rates_never_raises.2.1 [] "usd" (by decide),
   c4_get_exchange_rates_never_raises.2.2 [tableNoHead] tableNoHead "usd"
     (by decide) (by decide)⟩

/-- C5: when every attempt fails, `fetch_page` makes exactly `max_retries`
attempts with a fixed delay between consecutive attempts (`max_retries - 1`
sleeps) and ends in a distinguishable connection failure; when the first
attempt succeeds it makes exactly one attempt and returns the page text;
and the attempt budget defaults to `MAX_RETRIES = 3`. -/
theorem c5_fetch_page_retry_budget (attempt : Nat → Except String String)
    (m : Nat) (hm : 1 ≤ m) :
    ((∀ i, ∃ e, attempt i = Except.error e) →
       ∃ e, fetch_page attempt m = (.connectionFailure e, m, m - 1)) ∧
    (∀ t, attempt 0 = Except.ok t →
       fetch_page attempt m = (.success t, 1, 0)) ∧
    MAX_RETRIES = 3 := by
  refine ⟨fun hfail => ?_, fun t ht => ?_, rfl⟩
  · exact fetch_loop_all_fail attempt m m 0 (by omega) hm hfail
  · unfold fetch_page
    obtain ⟨m', rfl⟩ : ∃ m', m = m' + 1 := ⟨m - 1, by omega⟩
    unfold fetch_loop
    rw [ht]

/-- C5, witness: the theorem applied to an always-failing transport and to
an immediately-successful one, both with the default budget of 3. -/
theorem c5_fetch_page_retry_budget_witness :
    (∃ e, fetch_page (fun _ => Except.error "down") 3 =
       (.connectionFailure e, 3, 2)) ∧
    fetch_page (fun _ => Except.ok "page") 3 = (.success "page", 1, 0) :=
  ⟨(c5_fetch_page_retry_budget (fun _ => Except.error "down") 3
      (by norm_num)).1 (fun _ => ⟨"down", rfl⟩),
   (c5_fetch_page_retry_budget (fun _ => Except.ok "page") 3
      (by norm_num)).2.1 "page" rfl⟩

/-- C6: on a scheduler tick, dispatch is attempted for a subscription iff
its time equals the tick's current HH:MM string and its schedule is "daily",
or "weekly" with the tick's weekday being Sunday (6); in particular a weekly
subscription at "09:30" does not fire on a Monday (0) tick at "09:30" but
does fire on a Sunday tick at "09:30". -/
theorem c6_scheduler_due_iff :
    (∀ (subs : List (String × UserSubscription))
       (p : String × UserSubscription) (tm : String) (day : Nat),
       p ∈ due_subscriptions subs tm day ↔
         p ∈ subs ∧ should_send p.2 tm day = true) ∧
    (∀ (sub : UserSubscription) (tm : String) (day : Nat),
       should_send sub tm day = true ↔
         (sub.time = tm ∧ (sub.schedule = "daily" ∨
           (sub.schedule = "weekly" ∧ day = 6)))) ∧
    should_send ⟨["usd"], "weekly", "09:30"⟩ "09:30" 0 = false ∧
    should_send ⟨["usd"], "weekly", "09:30"⟩ "09:30" 6 = true := by
  refine ⟨fun subs p tm day => List.mem_filter, fun sub tm day => ?_,
    by decide, by decide⟩
  simp [should_send]

/-- C7: a body row with fewer than 5 cells is excluded from the extracted
output, and processing the table is total. -/
theorem c7_short_rows_skipped (idAttr : Option String) (cls : List String)
    (thead pre post : List (List String)) (row : List String) (c : String)
    (h : row.length < 5) :
    process_table_rows ⟨idAttr, cls, thead, pre ++ row :: post⟩ c =
      process_table_rows ⟨idAttr, cls, thead, pre ++ post⟩ c := by
  unfold process_table_rows
  have hfalse : (decide (5 ≤ row.length)) = false := by simp; omega
  simp [List.filter_append, List.filter_cons, hfalse]

/-- C7, witness: the theorem applied to a concrete two-cell row. -/
theorem c7_short_rows_skipped_witness :
    process_table_rows ⟨some "smTable", [], [], [["BankZ", "1"]]⟩ "usd" =
      process_table_rows ⟨some "smTable", [], [], []⟩ "usd" :=
  c7_short_rows_skipped (some "smTable") [] [] [] [] ["BankZ", "1"] "usd"
    (by decide)

/-- C8: removing an absent key returns false and leaves both the in-memory
map and the stored file unchanged; removing a present key returns true,
afterwards the key is absent from the map, and the stored file is the
serialization of the updated map. -/
theorem c8_remove_contract (st : ManagerState) (uid : String) :
    ((st.subs.lookup uid).isNone → remove st uid = (false, st)) ∧
    (∀ s, st.subs.lookup uid = some s →
       (remove st uid).1 = true ∧
       (remove st uid).2.subs.lookup uid = none ∧
       (remove st uid).2.stored =
         some ((remove st uid).2.subs.map fun p => (p.1, to_dict p.2))) := by
  constructor
  · intro h
    rw [Option.isNone_iff_eq_none] at h
    simp [remove, h]
  · intro s hs
    unfold remove
    rw [if_pos (by simp [hs])]
    exact ⟨rfl, lookup_filter_ne st.subs uid, rfl⟩

/-- C8, witness: the theorem applied to a one-subscriber state, removing an
absent key "2" and the present key "1". -/
theorem c8_remove_contract_witness :
    remove st8 "2" = (false, st8) ∧
    (remove st8 "1").1 = true ∧
    (remove st8 "1").2.subs.lookup "1" = none ∧
    (remove st8 "1").2.stored =
      some ((remove st8 "1").2.subs.map fun p => (p.1, to_dict p.2)) :=
  ⟨(c8_remove_contract st8 "2").1 (by decide),
   (c8_remove_contract st8 "1").2 subA (by decide)⟩

/-- C9: for a subscriber map of valid subscriptions, `save` followed by a
fresh `load` of the stored file reproduces the map exactly: same keys, and
for each key equal currencies, schedule and time. -/
theorem c9_save_load_roundtrip (subs : List (String × UserSubscription))
    (stored0 : Option (List (String × SubDict)))
    (_hv : ∀ p ∈ subs, valid_subscription p.2 = true) :
    load (save ⟨subs, stored0⟩).stored = subs :=
  load_save_subs subs stored0

/-- C9, witness: the theorem applied to a concrete two-subscriber map. -/
theorem c9_save_load_roundtrip_witness :
    load (save ⟨subs9, none⟩).stored = subs9 :=
  c9_save_load_roundtrip subs9 none (by decide)

/-- C10: a body row with at least 5 cells always extracts to a record and
is retained in the output; with fewer than 7 cells its card-sell is absent
and with fewer than 8 cells its update-time is absent, instead of an
index-out-of-range error dropping the row. -/
theorem c10_long_rows_total (t : Table) (c : String) (row : List String)
    (hmem : row ∈ t.tbodyRows) (hlen : 5 ≤ row.length) :
    ∃ r, extract_bank_data (row.map stripText) c = some r ∧
      r ∈ process_table_rows t c ∧
      (row.length < 7 → r.card_sell = none) ∧
      (row.length < 8 → r.update_time = none) := by
  have hlen' : (row.map stripText).length = row.length := List.length_map _ _
  have h0 : (row.map stripText).get? 0 =
      some ((row.map stripText).get ⟨0, by omega⟩) :=
    List.get?_eq_get (by omega)
  cases hx : extract_bank_data (row.map stripText) c with
  | none =>
    unfold extract_bank_data at hx
    rw [h0] at hx
    simp at hx
  | some r =>
    refine ⟨r, rfl, ?_, ?_, ?_⟩
    · exact List.mem_filterMap.mpr
        ⟨row, List.mem_filter.mpr ⟨hmem, by simpa using hlen⟩, hx⟩
    · intro h7
      unfold extract_bank_data at hx
      rw [h0] at hx
      injection hx with hx
      rw [← hx]
      show extract_rate (row.map stripText) 6 = none
      unfold extract_rate
      rw [List.get?_eq_none.mpr (by omega)]
    · intro h8
      unfold extract_bank_data at hx
      rw [h0] at hx
      injection hx with hx
      rw [← hx]
      show (row.map stripText).get? 7 = none
      exact List.get?_eq_none.mpr (by omega)

/-- C10, witness: the theorem applied to a concrete 5-cell row. -/
theorem c10_long_rows_total_witness :
    ∃ r, extract_bank_data (rowC10.map stripText) "usd" = some r ∧
      r ∈ process_table_rows tableC10 "usd" ∧
      (rowC10.length < 7 → r.card_sell = none) ∧
      (rowC10.length < 8 → r.update_time = none) :=
  c10_long_rows_total tableC10 "usd" rowC10 (by decide) (by decide)
